import Mathlib

/-!
# Verification of the demand-forecasting service of Backend-cybermoon

Shallow embedding of `app/services/demand_prediction_service.py` (and the
parts of `app/routers/ml_reports.py` that consume it).

Modelling conventions:
* A pandas `Timestamp` is modelled by its wall-clock minute count since the
  epoch 1970-01-01T00:00 (an `Int`; pandas timestamps are int64 nanoseconds,
  every value in this development is minute-aligned) together with an
  optional fixed timezone offset tag.  Python floor division `//` and `%`
  coincide with Lean's `Int` `/` (`Int.ediv`) and `%` (`Int.emod`) for the
  positive divisors used here.
* A raw `start_time` cell of the sessions DataFrame is modelled by the result
  `pd.to_datetime(cell, errors='coerce')` would produce: `some t` for a
  parseable value, `none` for `NaT`.
* Raw float predictions of the estimator are modelled as exact rationals `ℚ`;
  `np.round` is round-half-to-even.
* Exceptions are modelled with `Except`: a function body that can raise
  returns `Except PyExn α`, and the `try/except` boundary maps errors to the
  value the handler returns.
-/

namespace Cybermoon

/-! ## Timestamps and calendar features

`create_time_features` (demand_prediction_service.py lines 85-103) reads the
pandas `DatetimeIndex` accessors `.hour`, `.dayofweek`, `.month`,
`.dayofyear`, `.quarter`.  We implement the proleptic-Gregorian calendar
arithmetic behind those accessors on minutes-since-epoch, following the
standard civil-from-days algorithm. -/

/-- Hour of day (0-23) of a wall-clock minute count. Pandas `.hour`. -/
def tsHour (t : Int) : Int := (t / 60) % 24

/-- Whole days since 1970-01-01 (floored). -/
def tsDays (t : Int) : Int := t / 1440

/-- Day of week, Monday = 0 (pandas `.dayofweek`); 1970-01-01 was a Thursday. -/
def tsDow (t : Int) : Int := (tsDays t + 3) % 7

/-- Days since 0000-03-01 of the proleptic Gregorian calendar (the
March-anchored epoch of the civil-date decomposition). -/
def daysMarch (t : Int) : Int := tsDays t + 719468

/-- Century index of the day (Euclidean-affine civil-date decomposition). -/
def centuryOf (t : Int) : Int := (4 * daysMarch t + 3) / 146097

/-- Day within the century, 0-36524. -/
def docOf (t : Int) : Int := (4 * daysMarch t + 3) % 146097 / 4

/-- Year within the century (March-based years), 0-99 (100 on the leap day
closing a 400-year cycle's century). -/
def yocOf (t : Int) : Int := (4 * docOf t + 3) / 1461

/-- Day of the March-based year, 0-365. -/
def doyOf (t : Int) : Int := (4 * docOf t + 3) % 1461 / 4

/-- Shifted month index: 0 = March, …, 11 = February. -/
def mpOf (t : Int) : Int := (5 * doyOf t + 2) / 153

/-- Calendar month 1-12 (pandas `.month`). -/
def tsMonth (t : Int) : Int := mpOf t + (if mpOf t < 10 then 3 else -9)

/-- Calendar year (pandas `.year`). -/
def tsYear (t : Int) : Int :=
  (100 * centuryOf t + yocOf t) + (if tsMonth t ≤ 2 then 1 else 0)

/-- Gregorian leap-year test. -/
def isLeap (y : Int) : Bool := y % 4 == 0 && (y % 100 != 0 || y % 400 == 0)

/-- 1-indexed day of year, 1-365/366 (pandas `.dayofyear`).  A March-based
day-of-year of 306 or more (equivalently `mpOf ≥ 10`, i.e. the month is
January or February) belongs to the next civil year. -/
def tsDayofyear (t : Int) : Int :=
  if 10 ≤ mpOf t then doyOf t - 305
  else doyOf t + 60 + (if isLeap (tsYear t) then 1 else 0)

/-- Quarter 1-4 (pandas `.quarter`). -/
def tsQuarter (t : Int) : Int := (tsMonth t - 1) / 3 + 1

/-- Days since the epoch of a civil date (inverse of the above; used to state
concrete-date examples). Hinnant's `days_from_civil`. -/
def daysFromCivil (y m d : Int) : Int :=
  let y1 := y - (if m ≤ 2 then 1 else 0)
  let era := y1 / 400
  let yoe := y1 - era * 400
  let doy := (153 * (m + (if m > 2 then -3 else 9)) + 2) / 5 + d - 1
  let doe := yoe * 365 + yoe / 4 - yoe / 100 + doy
  era * 146097 + doe - 719468

/-- Wall-clock minutes since the epoch of a civil date-time. -/
def minutesOfDate (y m d hh mm : Int) : Int :=
  1440 * daysFromCivil y m d + 60 * hh + mm

/-- One row of the feature DataFrame built by `create_time_features`
(columns `hour`, `dayofweek`, `month`, `dayofyear`, `quarter`). -/
structure Features where
  hour : Int
  dayofweek : Int
  month : Int
  dayofyear : Int
  quarter : Int
deriving DecidableEq, Repr

/-- The 5-tuple of calendar features of one timestamp. -/
def featuresOf (t : Int) : Features :=
  ⟨tsHour t, tsDow t, tsMonth t, tsDayofyear t, tsQuarter t⟩

/-- `create_time_features` (lines 85-103).  Input: the index of the series
(the values are ignored by the source), as the list of its timestamps'
minute counts, plus whether the index is a `DatetimeIndex`.  An empty series
or a non-datetime index yields an empty DataFrame. -/
def create_time_features (isDatetimeIndex : Bool) (idx : List Int) : List Features :=
  if idx.isEmpty || !isDatetimeIndex then []
  else idx.map featuresOf

/-! ## The sessions DataFrame and the Aggregator

`clean_and_aggregate_data` (lines 46-82) receives the DataFrame of session
rows.  Only the `start_time` column is read; each cell is modelled by what
`pd.to_datetime(cell, errors='coerce')` yields (`none` = `NaT`).  The source
mutates its argument (`df['start_time'] = …`, `dropna(inplace=True)`,
`set_index(inplace=True)`), so the embedding passes the DataFrame state
explicitly and returns the caller's DataFrame after the call. -/

structure DataFrame where
  /-- The `start_time` column, one cell per row, as its parse result. -/
  startTime : List (Option Int)
  /-- Whether `start_time` is currently the frame's index (after
  `set_index('start_time', inplace=True)` it is). -/
  startTimeIsIndex : Bool
deriving DecidableEq, Repr

/-- The hourly count series: `(hour-floored minute timestamp, count)` pairs,
index ascending. -/
structure HSeries where
  entries : List (Int × Nat)
deriving DecidableEq, Repr

/-- `pd.Series(dtype='int')` — the empty series. -/
def HSeries.empty : HSeries := ⟨[]⟩

/-- Floor a minute timestamp to its hour (`resample('H')` bucket key). -/
def floorH (t : Int) : Int := (t / 60) * 60

/-- Minimum of a nonempty list given as head and tail. -/
def listMinD (x : Int) (xs : List Int) : Int := xs.foldl min x

/-- Maximum of a nonempty list given as head and tail. -/
def listMaxD (x : Int) (xs : List Int) : Int := xs.foldl max x

/-- The contiguous hourly grid from `mn` to `mx`
(`pd.date_range(mn, mx, freq='H')`, both hour-aligned, `mn ≤ mx`). -/
def hourlyGrid (mn mx : Int) : List Int :=
  (List.range (((mx - mn) / 60).toNat + 1)).map (fun (i : Nat) => mn + 60 * (i : Int))

/-- `df.resample('H').size()` followed by the reindex onto the full hourly
grid (lines 68-75): bucket the parsed timestamps by floored hour and count
each grid hour's hits (0 when no row falls in the bucket).  `resample`
already emits every hour between the floored min and max, so the explicit
`reindex` of lines 71-75 leaves the index unchanged; the embedding builds
that common result directly. -/
def aggregate (times : List Int) : HSeries :=
  match times with
  | [] => HSeries.empty
  | t :: ts =>
    let mn := listMinD (floorH t) (ts.map floorH)
    let mx := listMaxD (floorH t) (ts.map floorH)
    ⟨(hourlyGrid mn mx).map
      (fun h => (h, (t :: ts).countP (fun u => floorH u == h)))⟩

/-- `clean_and_aggregate_data` (lines 46-82).  Returns the series together
with the state of the caller's DataFrame after the call (the source edits
`df` in place).  Control flow of the source:
line 51 empty check → line 56 coerce parse → line 58 in-place dropna →
line 60 second empty check → line 65 in-place set_index → lines 68-75
resample and reindex. -/
def clean_and_aggregate_data (df : DataFrame) : HSeries × DataFrame :=
  if df.startTime.isEmpty then (HSeries.empty, df)
  else
    let kept := df.startTime.filterMap id
    if kept.isEmpty then
      (HSeries.empty, ⟨kept.map some, df.startTimeIsIndex⟩)
    else
      (aggregate kept, ⟨kept.map some, true⟩)

/-! ## Model artifact, Trainer and Predictor

The fitted `LinearRegression` maps the 5 features linearly to a scalar
(5 coefficients plus an intercept); raw outputs are modelled as exact
rationals.  The artifact store is the content of the single well-known
location: `some model` when a file is present, `none` when absent. -/

/-- Modelled from the spec: the module-level constant `MODEL_FILE_PATH` is
referenced by `train_demand_model`, `predict_future_demand` and the router
(`demand_service.MODEL_FILE_PATH`) but its definition is not present in the
provided source files; per the spec it is the one fixed well-known artifact
path ("one file/blob at a fixed path"). -/
def MODEL_FILE_PATH : String := "demand_model.joblib"

/-- A fitted linear estimator: 5 coefficients and an intercept. -/
structure LinModel where
  coefHour : ℚ
  coefDow : ℚ
  coefMonth : ℚ
  coefDayofyear : ℚ
  coefQuarter : ℚ
  intercept : ℚ
deriving DecidableEq, Repr

/-- `model.predict` on one feature row. -/
def LinModel.predictOne (m : LinModel) (f : Features) : ℚ :=
  m.coefHour * f.hour + m.coefDow * f.dayofweek + m.coefMonth * f.month +
    m.coefDayofyear * f.dayofyear + m.coefQuarter * f.quarter + m.intercept

/-- `np.round` on an exact rational: round half to even. -/
def roundHalfEven (q : ℚ) : Int :=
  if q - Int.floor q < 1/2 then Int.floor q
  else if 1/2 < q - Int.floor q then Int.floor q + 1
  else if Int.floor q % 2 = 0 then Int.floor q else Int.floor q + 1

/-- `train_demand_model` (lines 105-136), with the black-box OLS `fit` of
`sklearn.linear_model.LinearRegression` as a parameter (the spec treats the
estimator as a replaceable black box with a fit/predict contract).  Takes
the artifact-store state and returns the boolean result together with the
store after the call (`joblib.dump` on line 131 overwrites the artifact). -/
def train_demand_model (fit : List Features → List Nat → LinModel)
    (store : Option LinModel) (s : HSeries) : Bool × Option LinModel :=
  if s.entries.isEmpty || s.entries.length < 10 then (false, store)
  else
    let X := create_time_features true (s.entries.map Prod.fst)
    if X.isEmpty then (false, store)
    else (true, some (fit X (s.entries.map Prod.snd)))

/-- A pandas `Timestamp`: wall-clock minute count plus optional fixed
timezone offset (in minutes; `none` = timezone-naive). -/
structure Timestamp where
  minutes : Int
  tz : Option Int
deriving DecidableEq, Repr

/-- The `last_known_time` argument as received by `predict_future_demand`:
either an actual pandas `Timestamp` or any other Python object (the
source's `isinstance` guard on line 144 only distinguishes these two). -/
inductive LastKnownArg where
  | ts (t : Timestamp)
  | notTimestamp
deriving DecidableEq, Repr

/-- One row of the returned prediction DataFrame
(columns `time`, `predicted_sessions`). -/
structure PredDF where
  rows : List (Timestamp × Int)
deriving DecidableEq, Repr

/-- Exceptions that the body of `predict_future_demand` can raise. -/
inductive PyExn where
  /-- `FileNotFoundError` from `joblib.load` when the artifact is absent. -/
  | fileNotFound
  /-- Any other exception (all remaining `Exception` subclasses; e.g. the
  `ValueError` of `pd.date_range` on a negative `periods`). -/
  | other
deriving DecidableEq, Repr

/-- `pd.date_range(start=last + 1h, periods=n, freq='H', tz=last.tz)`
(lines 155-160): the `n` hourly timestamps after `last`, in its timezone. -/
def futureIndex (last : Timestamp) (n : Nat) : List Timestamp :=
  (List.range n).map (fun (i : Nat) => ⟨last.minutes + 60 * ((i : Int) + 1), last.tz⟩)

/-- The `try` block of `predict_future_demand` (lines 148-186): each step
that can raise surfaces as `Except.error`.  `joblib.load` raises
`FileNotFoundError` on an absent artifact; `pd.date_range` raises
`ValueError` on a negative `periods`. -/
def predictBody (store : Option LinModel) (last : Timestamp)
    (hours_ahead : Int) : Except PyExn (Option PredDF) :=
  match store with
  | none => Except.error PyExn.fileNotFound
  | some model =>
    if hours_ahead < 0 then
      Except.error PyExn.other
    else
      let idx := futureIndex last hours_ahead.toNat
      let X_future := create_time_features true (idx.map Timestamp.minutes)
      if X_future.isEmpty then Except.ok none
      else
        let predictions_raw := X_future.map model.predictOne
        let predictions_clean := predictions_raw.map
          (fun q => roundHalfEven (max 0 q))
        Except.ok (some ⟨idx.zip predictions_clean⟩)

/-- `predict_future_demand` (lines 138-193).  The result is
`Except.ok v` when the call returns the value `v` (`none` = Python `None`),
and would be `Except.error e` if an exception escaped the function; the
source's handlers (`except FileNotFoundError` line 188, `except Exception`
line 191) both return `None`. -/
def predict_future_demand (store : Option LinModel) (last_known_time : LastKnownArg)
    (hours_ahead : Int) : Except PyExn (Option PredDF) :=
  match last_known_time with
  | LastKnownArg.notTimestamp => Except.ok none
  | LastKnownArg.ts t =>
    match predictBody store t hours_ahead with
    | Except.ok v => Except.ok v
    | Except.error PyExn.fileNotFound => Except.ok none
    | Except.error PyExn.other => Except.ok none

/-- Decidable equality of modelled call results. -/
instance {e a : Type} [DecidableEq e] [DecidableEq a] : DecidableEq (Except e a) := fun x y =>
  match x, y with
  | Except.ok u, Except.ok v =>
    if h : u = v then isTrue (by rw [h])
    else isFalse (fun hc => h (Except.ok.inj hc))
  | Except.error u, Except.error v =>
    if h : u = v then isTrue (by rw [h])
    else isFalse (fun hc => h (Except.error.inj hc))
  | Except.ok _, Except.error _ => isFalse (fun hc => Except.noConfusion hc)
  | Except.error _, Except.ok _ => isFalse (fun hc => Except.noConfusion hc)

/-! ## Concrete instances used by the witness theorems -/

/-- The zero estimator (every coefficient and the intercept 0). -/
def m0 : LinModel := ⟨0, 0, 0, 0, 0, 0⟩

/-- An estimator whose raw output is the negative constant -5. -/
def m1 : LinModel := ⟨0, 0, 0, 0, 0, -5⟩

/-- A black-box fit returning the zero estimator. -/
def fit0 : List Features → List Nat → LinModel := fun _ _ => m0

/-- 2024-01-15T00:00:00Z as a pandas `Timestamp` (UTC offset 0). -/
def t0 : Timestamp := ⟨minutesOfDate 2024 1 15 0 0, some 0⟩

/-- A DataFrame with one parseable and one unparseable `start_time`. -/
def df0 : DataFrame := ⟨[some 90, none], false⟩

/-- A DataFrame with two parseable rows an hour apart plus one `NaT`. -/
def df3 : DataFrame := ⟨[some 90, none, some 250], false⟩

/-- A DataFrame whose every row has an unparseable `start_time`. -/
def df9 : DataFrame := ⟨[none, none], false⟩

/-- An hourly series of 9 points (one short of the training minimum). -/
def s9 : HSeries := ⟨(List.range 9).map (fun (i : Nat) => ((i : Int) * 60, 1))⟩

/-- An hourly series of 10 points (the training minimum). -/
def s10 : HSeries := ⟨(List.range 10).map (fun (i : Nat) => ((i : Int) * 60, 1))⟩

/-- The prediction DataFrame the zero estimator yields for 24 hours from
`t0`: the 24 following hours, each with 0 predicted sessions. -/
def demoDF : PredDF :=
  ⟨(List.range 24).map (fun (i : Nat) => (⟨t0.minutes + 60 * ((i : Int) + 1), t0.tz⟩, 0))⟩

/-- The prediction DataFrame the constant -5 estimator yields for 2 hours
from `t0`: clamping makes both predictions 0. -/
def demoDF1 : PredDF :=
  ⟨[(⟨t0.minutes + 60, t0.tz⟩, 0), (⟨t0.minutes + 120, t0.tz⟩, 0)]⟩

/-! ## Helper lemmas -/

theorem tsHour_bounds (t : Int) : 0 ≤ tsHour t ∧ tsHour t ≤ 23 := by
  unfold tsHour; omega

theorem tsDow_bounds (t : Int) : 0 ≤ tsDow t ∧ tsDow t ≤ 6 := by
  unfold tsDow tsDays; omega

theorem doyOf_bounds (t : Int) : 0 ≤ doyOf t ∧ doyOf t ≤ 365 := by
  unfold doyOf docOf; omega

theorem tsMonth_bounds (t : Int) : 1 ≤ tsMonth t ∧ tsMonth t ≤ 12 := by
  have h := doyOf_bounds t
  unfold tsMonth mpOf
  split <;> omega

theorem tsDayofyear_bounds (t : Int) : 1 ≤ tsDayofyear t ∧ tsDayofyear t ≤ 366 := by
  have h := doyOf_bounds t
  have hmp : mpOf t = (5 * doyOf t + 2) / 153 := rfl
  unfold tsDayofyear
  split
  · omega
  · split <;> omega

theorem tsQuarter_bounds (t : Int) : 1 ≤ tsQuarter t ∧ tsQuarter t ≤ 4 := by
  have h := tsMonth_bounds t
  unfold tsQuarter
  omega

theorem roundHalfEven_nonneg (q : ℚ) (hq : 0 ≤ q) : 0 ≤ roundHalfEven q := by
  have h0 : 0 ≤ Int.floor q := Int.floor_nonneg.mpr hq
  unfold roundHalfEven
  split_ifs <;> omega

theorem floorH_dvd (u : Int) : (60 : Int) ∣ floorH u :=
  dvd_mul_left 60 (u / 60)

theorem foldl_min_mem (xs : List Int) : ∀ x : Int, xs.foldl min x ∈ x :: xs := by
  induction xs with
  | nil => intro x; simp
  | cons b bs ih =>
    intro x
    have h := ih (min x b)
    rw [List.foldl_cons]
    rcases List.mem_cons.mp h with h | h
    · rcases min_choice x b with hc | hc <;> rw [h, hc] <;> simp
    · simp [h]

theorem foldl_min_le (xs : List Int) :
    ∀ x y : Int, y ∈ x :: xs → xs.foldl min x ≤ y := by
  induction xs with
  | nil =>
    intro x y hy
    rcases List.mem_cons.mp hy with h | h
    · simp [h]
    · simp at h
  | cons b bs ih =>
    intro x y hy
    rw [List.foldl_cons]
    have hx : bs.foldl min (min x b) ≤ min x b :=
      ih (min x b) (min x b) (List.mem_cons_self _ _)
    rcases List.mem_cons.mp hy with h | h
    · exact le_trans hx (le_trans (min_le_left x b) (le_of_eq h.symm))
    · rcases List.mem_cons.mp h with h2 | h2
      · exact le_trans hx (le_trans (min_le_right x b) (le_of_eq h2.symm))
      · exact ih (min x b) y (List.mem_cons_of_mem _ h2)

theorem foldl_max_mem (xs : List Int) : ∀ x : Int, xs.foldl max x ∈ x :: xs := by
  induction xs with
  | nil => intro x; simp
  | cons b bs ih =>
    intro x
    have h := ih (max x b)
    rw [List.foldl_cons]
    rcases List.mem_cons.mp h with h | h
    · rcases max_choice x b with hc | hc <;> rw [h, hc] <;> simp
    · simp [h]

theorem le_foldl_max (xs : List Int) :
    ∀ x y : Int, y ∈ x :: xs → y ≤ xs.foldl max x := by
  induction xs with
  | nil =>
    intro x y hy
    rcases List.mem_cons.mp hy with h | h
    · simp [h]
    · simp at h
  | cons b bs ih =>
    intro x y hy
    rw [List.foldl_cons]
    have hx : max x b ≤ bs.foldl max (max x b) :=
      ih (max x b) (max x b) (List.mem_cons_self _ _)
    rcases List.mem_cons.mp hy with h | h
    · exact le_trans (le_trans (le_of_eq h) (le_max_left x b)) hx
    · rcases List.mem_cons.mp h with h2 | h2
      · exact le_trans (le_trans (le_of_eq h2) (le_max_right x b)) hx
      · exact ih (max x b) y (List.mem_cons_of_mem _ h2)

theorem hourlyGrid_ne_nil (mn mx : Int) : hourlyGrid mn mx ≠ [] := by
  unfold hourlyGrid
  simp

theorem hourlyGrid_chain' (mn mx : Int) :
    List.Chain' (fun a b => b = a + 60) (hourlyGrid mn mx) := by
  unfold hourlyGrid
  rw [List.chain'_map, List.chain'_range_succ]
  intro m _
  push_cast
  ring

theorem hourlyGrid_head? (mn mx : Int) : (hourlyGrid mn mx).head? = some mn := by
  unfold hourlyGrid
  rw [List.range_succ_eq_map]
  simp

theorem hourlyGrid_getLast? (mn mx : Int) (h1 : mn ≤ mx)
    (h2 : (60 : Int) ∣ mx - mn) : (hourlyGrid mn mx).getLast? = some mx := by
  unfold hourlyGrid
  rw [List.range_succ, List.map_append]
  simp only [List.map_cons, List.map_nil]
  rw [List.getLast?_concat]
  have h3 : (0 : Int) ≤ (mx - mn) / 60 := by
    apply Int.ediv_nonneg <;> omega
  have h4 : ((((mx - mn) / 60).toNat : Int)) = (mx - mn) / 60 :=
    Int.toNat_of_nonneg h3
  have h5 : 60 * ((mx - mn) / 60) = mx - mn := Int.mul_ediv_cancel' h2
  rw [h4]
  simp only [Option.some.injEq]
  omega

theorem futureIndex_length (t : Timestamp) (n : Nat) :
    (futureIndex t n).length = n := by
  unfold futureIndex
  simp

theorem futureIndex_tz (t : Timestamp) (n : Nat) :
    ∀ τ ∈ futureIndex t n, τ.tz = t.tz := by
  intro τ hτ
  unfold futureIndex at hτ
  rcases List.mem_map.mp hτ with ⟨i, _, hi⟩
  rw [← hi]

theorem futureIndex_chain' (t : Timestamp) (n : Nat) :
    List.Chain' (fun a b => b.minutes = a.minutes + 60) (futureIndex t n) := by
  unfold futureIndex
  rw [List.chain'_map]
  cases n with
  | zero => simp
  | succ k =>
    rw [List.chain'_range_succ]
    intro m _
    push_cast
    ring

theorem futureIndex_head? (t : Timestamp) (n : Nat) (h : n ≠ 0) :
    (futureIndex t n).head? = some ⟨t.minutes + 60, t.tz⟩ := by
  cases n with
  | zero => exact absurd rfl h
  | succ k =>
    unfold futureIndex
    rw [List.range_succ_eq_map]
    simp

theorem futureIndex_getLast? (t : Timestamp) (n : Nat) (h : n ≠ 0) :
    (futureIndex t n).getLast? = some ⟨t.minutes + 60 * n, t.tz⟩ := by
  cases n with
  | zero => exact absurd rfl h
  | succ k =>
    unfold futureIndex
    rw [List.range_succ, List.map_append]
    simp only [List.map_cons, List.map_nil]
    rw [List.getLast?_concat]
    push_cast
    ring_nf

/-! ## Claim theorems -/

/-- C8: `create_time_features` is deterministic — for every timestamp it
always emits the same 5-tuple, with hour in 0-23, Monday-0 day-of-week in
0-6, 1-indexed month, 1-indexed day-of-year and 1-indexed quarter; in
particular 2024-01-15T14:30:00Z maps to hour 14, dayofweek 0, month 1,
dayofyear 15, quarter 1.  (Determinism is intrinsic: the feature builder is
a pure function of the timestamp.) -/
theorem create_time_features_deterministic :
    (∀ t₁ t₂ : Int, t₁ = t₂ → featuresOf t₁ = featuresOf t₂) ∧
    (∀ t : Int,
      0 ≤ (featuresOf t).hour ∧ (featuresOf t).hour ≤ 23 ∧
      0 ≤ (featuresOf t).dayofweek ∧ (featuresOf t).dayofweek ≤ 6 ∧
      1 ≤ (featuresOf t).month ∧ (featuresOf t).month ≤ 12 ∧
      1 ≤ (featuresOf t).dayofyear ∧ (featuresOf t).dayofyear ≤ 366 ∧
      1 ≤ (featuresOf t).quarter ∧ (featuresOf t).quarter ≤ 4) ∧
    create_time_features true [minutesOfDate 2024 1 15 14 30] =
      [⟨14, 0, 1, 15, 1⟩] := by
  refine ⟨fun t₁ t₂ h => by rw [h], fun t => ?_, by decide⟩
  obtain ⟨h1, h2⟩ := tsHour_bounds t
  obtain ⟨h3, h4⟩ := tsDow_bounds t
  obtain ⟨h5, h6⟩ := tsMonth_bounds t
  obtain ⟨h7, h8⟩ := tsDayofyear_bounds t
  obtain ⟨h9, h10⟩ := tsQuarter_bounds t
  exact ⟨h1, h2, h3, h4, h5, h6, h7, h8, h9, h10⟩

/-- C8 witness: the determinism implication of
`create_time_features_deterministic` instantiated at the concrete
timestamp 2024-01-15T14:30:00Z. -/
theorem create_time_features_deterministic_witness :
    featuresOf (minutesOfDate 2024 1 15 14 30) =
      featuresOf (minutesOfDate 2024 1 15 14 30) :=
  create_time_features_deterministic.1 _ _ rfl

/-- C9: an empty input DataFrame, or one whose every record has an
unparseable `start_time`, makes `clean_and_aggregate_data` return the empty
series (and the embedding is total: no error is raised on this path). -/
theorem clean_empty_or_unparseable (df : DataFrame)
    (h : df.startTime = [] ∨ ∀ c ∈ df.startTime, c = none) :
    (clean_and_aggregate_data df).1 = HSeries.empty := by
  unfold clean_and_aggregate_data
  rcases h with h | h
  · simp [h]
  · by_cases he : df.startTime.isEmpty
    · simp [he]
    · have hk : df.startTime.filterMap id = [] := by
        rw [List.filterMap_eq_nil_iff]
        exact h
      simp [he, hk]

/-- C9 witness: the all-unparseable DataFrame `df9` yields the empty
series. -/
theorem clean_empty_or_unparseable_witness :
    (df9.startTime = [] ∨ ∀ c ∈ df9.startTime, c = none) ∧
    (clean_and_aggregate_data df9).1 = HSeries.empty :=
  ⟨Or.inr (by decide), clean_empty_or_unparseable df9 (Or.inr (by decide))⟩

/-- C10: when `last_known_time` is not a pandas `Timestamp`,
`predict_future_demand` returns `None` immediately (line 144-146), for every
artifact-store state and every horizon — in particular without loading the
model artifact: the result does not depend on the store. -/
theorem predict_non_timestamp_none (store : Option LinModel) (hours_ahead : Int) :
    predict_future_demand store LastKnownArg.notTimestamp hours_ahead =
      Except.ok none := rfl

/-- C6: `predict_future_demand` never lets an exception escape its boundary:
for every input and store state the result is a returned value (`Except.ok`),
never a propagated exception — the handlers on lines 188-193 cover every
exception the body can raise and turn it into `None`. -/
theorem predict_never_raises (store : Option LinModel) (arg : LastKnownArg)
    (hours_ahead : Int) :
    ∃ v : Option PredDF,
      predict_future_demand store arg hours_ahead = Except.ok v := by
  cases arg with
  | notTimestamp => exact ⟨none, rfl⟩
  | ts t =>
    rcases hb : predictBody store t hours_ahead with e | v
    · cases e <;> exact ⟨none, by simp [predict_future_demand, hb]⟩
    · exact ⟨v, by simp [predict_future_demand, hb]⟩

/-- C2 failing input: with the model artifact absent, predicting from the
valid timestamp 2024-01-15T00:00:00Z returns plain `None` — exactly the
same value every other failure produces (here: a `ValueError` failure with
the artifact present), so the missing-model condition is NOT distinguishable
by the caller; the router's `except FileNotFoundError` branch
(ml_reports.py lines 110-112) can never fire because the service already
swallowed the exception (line 188-190). -/
theorem predict_missing_model_indistinguishable :
    predict_future_demand none (LastKnownArg.ts t0) 24 = Except.ok none ∧
    predict_future_demand (some m0) (LastKnownArg.ts t0) (-1) = Except.ok none :=
  ⟨rfl, rfl⟩

/-- C1: for every prior artifact state, training on a series of fewer than
10 points returns `false` and leaves the artifact unchanged; training on a
series of at least 10 points returns `true` and overwrites the artifact with
the estimator fitted on the series' calendar features and counts.
(The success half relies on the spec-modelled `MODEL_FILE_PATH` location:
the constant is absent from the provided source, see its definition.) -/
theorem train_min_ten (fit : List Features → List Nat → LinModel)
    (store : Option LinModel) (s : HSeries) :
    (s.entries.length < 10 →
      train_demand_model fit store s = (false, store)) ∧
    (10 ≤ s.entries.length →
      train_demand_model fit store s =
        (true, some (fit (create_time_features true (s.entries.map Prod.fst))
                         (s.entries.map Prod.snd)))) := by
  constructor
  · intro h
    unfold train_demand_model
    simp [h]
  · intro h
    have hne : s.entries ≠ [] := by
      intro he
      rw [he] at h
      simp at h
    have h1 : s.entries.isEmpty = false := by
      simp [List.isEmpty_iff, hne]
    have h2 : ¬ s.entries.length < 10 := by omega
    have hX : (create_time_features true (s.entries.map Prod.fst)).isEmpty = false := by
      simp [create_time_features, List.isEmpty_iff, hne]
    unfold train_demand_model
    simp [h1, h2, hX]

/-- C1 witness: a 9-point series fails (artifact untouched), a 10-point
series succeeds and overwrites the artifact. -/
theorem train_min_ten_witness :
    (s9.entries.length < 10 ∧
      train_demand_model fit0 (some m1) s9 = (false, some m1)) ∧
    (10 ≤ s10.entries.length ∧
      train_demand_model fit0 (some m1) s10 =
        (true, some (fit0 (create_time_features true (s10.entries.map Prod.fst))
                          (s10.entries.map Prod.snd)))) :=
  ⟨⟨by decide, (train_min_ten fit0 (some m1) s9).1 (by decide)⟩,
   ⟨by decide, (train_min_ten fit0 (some m1) s10).2 (by decide)⟩⟩

/-- C7 counterexample: `clean_and_aggregate_data` is claimed side-effect
free, but on the concrete DataFrame `df0` (one parseable and one
unparseable row) the caller's DataFrame after the call differs from the
input: the `NaT` row has been dropped in place and `start_time` has become
the index. -/
theorem clean_mutates_input :
    (clean_and_aggregate_data df0).2 ≠ df0 := by decide

/-- C7 amended: `clean_and_aggregate_data` mutates its input DataFrame
in place — for a non-empty input the `start_time` column is replaced by its
parse results with unparseable rows dropped, and (when any row is
parseable) `start_time` becomes the index; only an empty input is returned
unchanged.  The returned series itself is unaffected by the mutation. -/
theorem clean_input_after_call (df : DataFrame) :
    (clean_and_aggregate_data df).2 =
      if df.startTime.isEmpty then df
      else ⟨(df.startTime.filterMap id).map some,
            if (df.startTime.filterMap id).isEmpty then df.startTimeIsIndex
            else true⟩ := by
  unfold clean_and_aggregate_data
  by_cases h1 : df.startTime.isEmpty
  · simp [h1]
  · by_cases h2 : (df.startTime.filterMap id).isEmpty
    · simp [h1, h2]
    · simp [h1, h2]

/-- Zipping the future index with its own mapped prediction column is the
same as mapping each future timestamp to its prediction pair. -/
theorem zip_clean_eq_map (m : LinModel) (idx : List Timestamp) :
    idx.zip (List.map ((fun q => roundHalfEven (max 0 q)) ∘ m.predictOne)
      ((idx.map Timestamp.minutes).map featuresOf)) =
    idx.map (fun τ => (τ, roundHalfEven (max 0 (m.predictOne (featuresOf τ.minutes))))) := by
  have h := List.zip_map' id
    (fun τ => roundHalfEven (max 0 (m.predictOne (featuresOf τ.minutes)))) idx
  simpa [List.map_map, Function.comp_def] using h

/-- Inversion of a successful prediction: it can only arise from a present
artifact, and its rows are the future timestamps paired with the clamped,
rounded raw predictions. -/
theorem predict_ok_some_inv (store : Option LinModel) (t : Timestamp)
    (hours_ahead : Int) (df : PredDF)
    (hok : predict_future_demand store (LastKnownArg.ts t) hours_ahead =
      Except.ok (some df)) :
    ∃ m, store = some m ∧
      df.rows = (futureIndex t hours_ahead.toNat).map
        (fun τ => (τ, roundHalfEven (max 0 (m.predictOne (featuresOf τ.minutes))))) := by
  cases store with
  | none => simp [predict_future_demand, predictBody] at hok
  | some m =>
    refine ⟨m, rfl, ?_⟩
    by_cases hneg : hours_ahead < 0
    · simp [predict_future_demand, predictBody, hneg] at hok
    · by_cases hz : hours_ahead.toNat = 0
      · simp [predict_future_demand, predictBody, hneg, hz, futureIndex,
          create_time_features] at hok
      · have hne : futureIndex t hours_ahead.toNat ≠ [] := by
          unfold futureIndex
          simp [hz]
        have hX : (create_time_features true
            ((futureIndex t hours_ahead.toNat).map Timestamp.minutes)).isEmpty = false := by
          simp [create_time_features, List.isEmpty_iff, hne]
        have hdf : df = ⟨(futureIndex t hours_ahead.toNat).zip
            (List.map ((fun q => roundHalfEven (max 0 q)) ∘ m.predictOne)
              (create_time_features true
                ((futureIndex t hours_ahead.toNat).map Timestamp.minutes)))⟩ := by
          simp [predict_future_demand, predictBody, hneg, hX] at hok
          exact hok.symm
        rw [hdf]
        have hXval : create_time_features true
            ((futureIndex t hours_ahead.toNat).map Timestamp.minutes) =
            ((futureIndex t hours_ahead.toNat).map Timestamp.minutes).map featuresOf := by
          simp [create_time_features, List.isEmpty_iff, hne]
        rw [hXval]
        exact zip_clean_eq_map m (futureIndex t hours_ahead.toNat)

/-- Forward evaluation of a successful prediction: with the artifact present
and a usable horizon, `predict_future_demand` returns exactly the future
grid paired with the clamped rounded raw outputs. -/
theorem predict_formula (m : LinModel) (t : Timestamp) (hours_ahead : Int)
    (h0 : ¬ hours_ahead < 0) (hz : hours_ahead.toNat ≠ 0) :
    predict_future_demand (some m) (LastKnownArg.ts t) hours_ahead =
      Except.ok (some ⟨(futureIndex t hours_ahead.toNat).map
        (fun τ => (τ, roundHalfEven (max 0 (m.predictOne (featuresOf τ.minutes)))))⟩) := by
  have hne : futureIndex t hours_ahead.toNat ≠ [] := by
    unfold futureIndex
    simp [hz]
  have hX : (create_time_features true
      ((futureIndex t hours_ahead.toNat).map Timestamp.minutes)).isEmpty = false := by
    simp [create_time_features, List.isEmpty_iff, hne]
  have hXval : create_time_features true
      ((futureIndex t hours_ahead.toNat).map Timestamp.minutes) =
      ((futureIndex t hours_ahead.toNat).map Timestamp.minutes).map featuresOf := by
    simp [create_time_features, List.isEmpty_iff, hne]
  have hX2 : (((futureIndex t hours_ahead.toNat).map Timestamp.minutes).map
      featuresOf).isEmpty = false := by
    simp [List.isEmpty_iff, hne]
  simp only [predict_future_demand, predictBody, h0, if_false, hXval, hX2,
    Bool.false_eq_true]
  rw [List.map_map, zip_clean_eq_map m (futureIndex t hours_ahead.toNat)]

/-- The zero estimator predicts 0 on every feature row. -/
theorem m0_predictOne (f : Features) : m0.predictOne f = 0 := by
  simp [LinModel.predictOne, m0]

/-- The constant estimator `m1` predicts -5 on every feature row. -/
theorem m1_predictOne (f : Features) : m1.predictOne f = -5 := by
  simp [LinModel.predictOne, m1]

/-- Rounding the exact value 0 yields 0. -/
theorem roundHalfEven_zero : roundHalfEven (0 : ℚ) = 0 := by
  norm_num [roundHalfEven]

/-- Clamping then rounding the zero raw output yields 0. -/
theorem roundHalfEven_max_zero : roundHalfEven (max 0 (0 : ℚ)) = 0 := by
  norm_num [roundHalfEven]

/-- Clamping then rounding the raw output -5 yields 0. -/
theorem roundHalfEven_max_negfive : roundHalfEven (max 0 (-5 : ℚ)) = 0 := by
  have h : max 0 (-5 : ℚ) = 0 := max_eq_left (by norm_num)
  rw [h]
  norm_num [roundHalfEven]

/-- `demoDF` is exactly the prediction DataFrame of the zero estimator for
24 hours from `t0`. -/
theorem demoDF_eq : demoDF = ⟨(futureIndex t0 (24 : Int).toNat).map
    (fun τ => (τ, roundHalfEven (max 0 (m0.predictOne (featuresOf τ.minutes)))))⟩ := by
  unfold demoDF futureIndex
  rw [List.map_map]
  have h24 : (24 : Int).toNat = 24 := rfl
  rw [h24]
  apply congrArg PredDF.mk
  apply List.map_congr_left
  intro i _
  simp [Function.comp, m0_predictOne, roundHalfEven_max_zero, roundHalfEven_zero]

/-- `demoDF1` is exactly the prediction DataFrame of the estimator `m1` for
2 hours from `t0`. -/
theorem demoDF1_eq : demoDF1 = ⟨(futureIndex t0 (2 : Int).toNat).map
    (fun τ => (τ, roundHalfEven (max 0 (m1.predictOne (featuresOf τ.minutes)))))⟩ := by
  unfold demoDF1 futureIndex
  simp [List.range_succ, m1_predictOne, roundHalfEven_max_negfive,
    roundHalfEven_zero]

/-- C4: a successful prediction for a valid `last_known_time` and a positive
horizon has exactly `hours_ahead` rows; their timestamps start one hour
after `last_known_time`, increase in steps of exactly one hour, end exactly
`hours_ahead` hours after it, and all inherit its timezone. -/
theorem predict_grid_shape (store : Option LinModel) (t : Timestamp)
    (hours_ahead : Int) (df : PredDF)
    (hpos : 0 < hours_ahead)
    (hok : predict_future_demand store (LastKnownArg.ts t) hours_ahead =
      Except.ok (some df)) :
    df.rows.length = hours_ahead.toNat ∧
    df.rows.head?.map (fun r => r.1.minutes) = some (t.minutes + 60) ∧
    List.Chain' (fun a b => b.1.minutes = a.1.minutes + 60) df.rows ∧
    (∀ r ∈ df.rows, r.1.tz = t.tz) ∧
    df.rows.getLast?.map (fun r => r.1.minutes) =
      some (t.minutes + 60 * hours_ahead) := by
  obtain ⟨m, _, hrows⟩ := predict_ok_some_inv store t hours_ahead df hok
  have hz : hours_ahead.toNat ≠ 0 := by omega
  have hcast : ((hours_ahead.toNat : Int)) = hours_ahead :=
    Int.toNat_of_nonneg (by omega)
  refine ⟨?_, ?_, ?_, ?_, ?_⟩
  · rw [hrows, List.length_map, futureIndex_length]
  · rw [hrows, List.head?_map, futureIndex_head? t _ hz]
    rfl
  · rw [hrows, List.chain'_map]
    exact futureIndex_chain' t hours_ahead.toNat
  · intro r hr
    rw [hrows] at hr
    rcases List.mem_map.mp hr with ⟨τ, hτ, hre⟩
    rw [← hre]
    exact futureIndex_tz t hours_ahead.toNat τ hτ
  · rw [hrows, List.getLast?_map, futureIndex_getLast? t _ hz]
    simp [hcast]

/-- C4 witness: 24 hours ahead of 2024-01-15T00:00:00Z with the zero
estimator: 24 rows, from 2024-01-15T01:00:00Z through 2024-01-16T00:00:00Z,
hourly, UTC. -/
theorem predict_grid_shape_witness :
    ((0 : Int) < 24 ∧
     predict_future_demand (some m0) (LastKnownArg.ts t0) 24 =
       Except.ok (some demoDF)) ∧
    (demoDF.rows.length = (24 : Int).toNat ∧
     demoDF.rows.head?.map (fun r => r.1.minutes) = some (t0.minutes + 60) ∧
     List.Chain' (fun a b => b.1.minutes = a.1.minutes + 60) demoDF.rows ∧
     (∀ r ∈ demoDF.rows, r.1.tz = t0.tz) ∧
     demoDF.rows.getLast?.map (fun r => r.1.minutes) =
       some (t0.minutes + 60 * 24)) :=
  ⟨⟨by decide, by rw [demoDF_eq]; exact predict_formula m0 t0 24 (by decide) (by decide)⟩,
   predict_grid_shape (some m0) t0 24 demoDF (by decide)
     (by rw [demoDF_eq]; exact predict_formula m0 t0 24 (by decide) (by decide))⟩

/-- C5: every row of a successful prediction carries the raw estimator
output clamped to at least 0 and rounded half-to-even (`np.round`), so no
`predicted_sessions` value is negative whatever the sign of the raw
output. -/
theorem predict_nonneg_rounding (m : LinModel) (t : Timestamp)
    (hours_ahead : Int) (df : PredDF)
    (hok : predict_future_demand (some m) (LastKnownArg.ts t) hours_ahead =
      Except.ok (some df)) :
    df.rows.map Prod.snd =
      (futureIndex t hours_ahead.toNat).map
        (fun τ => roundHalfEven (max 0 (m.predictOne (featuresOf τ.minutes)))) ∧
    ∀ r ∈ df.rows, 0 ≤ r.2 := by
  obtain ⟨m', hm, hrows⟩ := predict_ok_some_inv (some m) t hours_ahead df hok
  have hm' : m' = m := by
    injection hm with h
    exact h.symm
  subst hm'
  constructor
  · rw [hrows, List.map_map]
    rfl
  · intro r hr
    rw [hrows] at hr
    rcases List.mem_map.mp hr with ⟨τ, _, hre⟩
    rw [← hre]
    exact roundHalfEven_nonneg _ (le_max_left 0 _)

/-- C5 witness: the constant -5 estimator over a 2-hour horizon from
2024-01-15T00:00:00Z: the raw outputs are negative, the returned counts are
both 0, hence non-negative. -/
theorem predict_nonneg_rounding_witness :
    predict_future_demand (some m1) (LastKnownArg.ts t0) 2 =
      Except.ok (some demoDF1) ∧
    (demoDF1.rows.map Prod.snd =
      (futureIndex t0 (2 : Int).toNat).map
        (fun τ => roundHalfEven (max 0 (m1.predictOne (featuresOf τ.minutes)))) ∧
     ∀ r ∈ demoDF1.rows, 0 ≤ r.2) :=
  ⟨by rw [demoDF1_eq]; exact predict_formula m1 t0 2 (by decide) (by decide),
   predict_nonneg_rounding m1 t0 2 demoDF1
     (by rw [demoDF1_eq]; exact predict_formula m1 t0 2 (by decide) (by decide))⟩

/-- On inputs with at least one parseable row, `clean_and_aggregate_data`
returns the aggregation of the parseable timestamps. -/
theorem clean_fst_eq_aggregate (df : DataFrame)
    (h : df.startTime.filterMap id ≠ []) :
    (clean_and_aggregate_data df).1 = aggregate (df.startTime.filterMap id) := by
  have hdf : df.startTime ≠ [] := by
    intro he
    apply h
    rw [he]
    rfl
  have h1 : df.startTime.isEmpty = false := by
    simp [List.isEmpty_iff, hdf]
  have h2 : (df.startTime.filterMap id).isEmpty = false := by
    simp [List.isEmpty_iff, h]
  unfold clean_and_aggregate_data
  simp [h1, h2]

/-- The aggregated series of a nonempty timestamp list: nonempty, hourly
chained, spanning exactly the floored min to the floored max, with each
bucket counting the rows that floor into it. -/
theorem aggregate_spec (t : Int) (ts : List Int) :
    (aggregate (t :: ts)).entries ≠ [] ∧
    List.Chain' (fun a b => b.1 = a.1 + 60) (aggregate (t :: ts)).entries ∧
    ((aggregate (t :: ts)).entries.head?).map Prod.fst =
      ((t :: ts).map floorH).min? ∧
    ((aggregate (t :: ts)).entries.getLast?).map Prod.fst =
      ((t :: ts).map floorH).max? ∧
    ∀ p ∈ (aggregate (t :: ts)).entries,
      p.2 = (t :: ts).countP (fun u => floorH u == p.1) := by
  have hmn_mem : listMinD (floorH t) (ts.map floorH) ∈ floorH t :: ts.map floorH :=
    foldl_min_mem _ _
  have hmx_mem : listMaxD (floorH t) (ts.map floorH) ∈ floorH t :: ts.map floorH :=
    foldl_max_mem _ _
  have hle : listMinD (floorH t) (ts.map floorH) ≤ listMaxD (floorH t) (ts.map floorH) :=
    foldl_min_le _ _ _ hmx_mem
  have hdvd_all : ∀ y ∈ floorH t :: ts.map floorH, (60 : Int) ∣ y := by
    intro y hy
    rcases List.mem_cons.mp hy with hc | hc
    · rw [hc]
      exact floorH_dvd t
    · rcases List.mem_map.mp hc with ⟨u, _, hu⟩
      rw [← hu]
      exact floorH_dvd u
  have hdvd : (60 : Int) ∣
      listMaxD (floorH t) (ts.map floorH) - listMinD (floorH t) (ts.map floorH) :=
    dvd_sub (hdvd_all _ hmx_mem) (hdvd_all _ hmn_mem)
  have hent : (aggregate (t :: ts)).entries =
      (hourlyGrid (listMinD (floorH t) (ts.map floorH))
                  (listMaxD (floorH t) (ts.map floorH))).map
        (fun h => (h, (t :: ts).countP (fun u => floorH u == h))) := rfl
  refine ⟨?_, ?_, ?_, ?_, ?_⟩
  · rw [hent]
    intro hc
    exact hourlyGrid_ne_nil _ _ (List.map_eq_nil_iff.mp hc)
  · rw [hent, List.chain'_map]
    simpa using hourlyGrid_chain' (listMinD (floorH t) (ts.map floorH))
      (listMaxD (floorH t) (ts.map floorH))
  · rw [hent, List.head?_map, hourlyGrid_head?]
    rfl
  · rw [hent, List.getLast?_map, hourlyGrid_getLast? _ _ hle hdvd]
    rfl
  · intro p hp
    rw [hent] at hp
    rcases List.mem_map.mp hp with ⟨g, _, hg⟩
    rw [← hg]

/-- C3: for every input with at least one parseable `start_time`, the
returned series is a complete ascending hourly grid with no gaps: it is
nonempty, consecutive timestamps differ by exactly one hour, the first and
last timestamps are the minimum and maximum floored hours of the parseable
rows, and each bucket's count is the number of rows whose `start_time`
floored to the hour equals that bucket (0 when none does). -/
theorem clean_aggregate_complete (df : DataFrame)
    (h : df.startTime.filterMap id ≠ []) :
    (clean_and_aggregate_data df).1.entries ≠ [] ∧
    List.Chain' (fun a b => b.1 = a.1 + 60)
      (clean_and_aggregate_data df).1.entries ∧
    ((clean_and_aggregate_data df).1.entries.head?).map Prod.fst =
      ((df.startTime.filterMap id).map floorH).min? ∧
    ((clean_and_aggregate_data df).1.entries.getLast?).map Prod.fst =
      ((df.startTime.filterMap id).map floorH).max? ∧
    ∀ p ∈ (clean_and_aggregate_data df).1.entries,
      p.2 = (df.startTime.filterMap id).countP (fun u => floorH u == p.1) := by
  rw [clean_fst_eq_aggregate df h]
  obtain ⟨u, us, hk⟩ : ∃ u us, df.startTime.filterMap id = u :: us := by
    cases hcase : df.startTime.filterMap id with
    | nil => exact absurd hcase h
    | cons u us => exact ⟨u, us, rfl⟩
  rw [hk]
  exact aggregate_spec u us

/-- C3 witness: the three-row DataFrame `df3` (timestamps 90 and 250
minutes, one `NaT`) aggregates to the gapless hourly grid 60, 120, 180, 240
with counts 1, 0, 0, 1. -/
theorem clean_aggregate_complete_witness :
    df3.startTime.filterMap id ≠ [] ∧
    ((clean_and_aggregate_data df3).1.entries ≠ [] ∧
     List.Chain' (fun a b => b.1 = a.1 + 60)
       (clean_and_aggregate_data df3).1.entries ∧
     ((clean_and_aggregate_data df3).1.entries.head?).map Prod.fst =
       ((df3.startTime.filterMap id).map floorH).min? ∧
     ((clean_and_aggregate_data df3).1.entries.getLast?).map Prod.fst =
       ((df3.startTime.filterMap id).map floorH).max? ∧
     ∀ p ∈ (clean_and_aggregate_data df3).1.entries,
       p.2 = (df3.startTime.filterMap id).countP (fun u => floorH u == p.1)) :=
  ⟨by decide, clean_aggregate_complete df3 (by decide)⟩

end Cybermoon
